import Mathlib

/-!
Shallow embedding of the point-generation and point-statistics core of the
`holey` repository (`src/App.tsx`).  JavaScript numbers are modelled by real
numbers; `Math.sqrt`, `Math.cos`, `Math.sin` and `Math.PI` by their exact
real counterparts; `+Infinity` (the initial value of the nearest-neighbour
scan and the value of `Math.min()` on no arguments) by the top element of
`EReal`, and `Math.max()` on no arguments by the bottom element.
-/

namespace Holey

/-- Embedding of `roundFloat` (App.tsx line 28): `parseFloat(val.toFixed(2))`,
i.e. rounding to 2 decimal places.  The `prec` parameter of the source always
takes its default value 2, so it is inlined here.  `toFixed` rounds to the
nearest multiple of 1/100, ties towards `+∞`, which is Mathlib's `round`. -/
noncomputable def roundFloat (val : ℝ) : ℝ :=
  (round (val * 100) : ℤ) / 100

/-- Embedding of `radius` (App.tsx lines 11-16).  `k` and `n` are the loop
index and the point count (naturals in every call), `b` the boundary count
(an integer; `Math.round` of a real). -/
noncomputable def radius (k n : ℕ) (b : ℤ) : ℝ :=
  if (k : ℤ) > (n : ℤ) - b then 1.0
  else Real.sqrt ((k : ℝ) - 0.5) / Real.sqrt ((n : ℝ) - ((b : ℝ) + 1) / 2)

/-- Embedding of `generateSunflowerPoints` (App.tsx lines 34-52).  The loop
`for (let k = 1; k <= n; k++) points.push(...)` builds exactly the list
obtained by mapping the body over `k = j + 1` for `j ∈ [0, n)`. -/
noncomputable def generateSunflowerPoints (n : ℕ) (alpha : ℝ) (geodesic : Bool)
    (size : ℝ) : List (ℝ × ℝ) :=
  let phi := (1 + Real.sqrt 5) / 2
  let angleStride := if geodesic then 360 * phi else (2 * Real.pi) / phi ^ 2
  let b := round (alpha * Real.sqrt n)
  (List.range n).map (fun j =>
    let k := j + 1
    let r := radius k n b * (size / 2)
    let theta := (k : ℝ) * angleStride
    (roundFloat (r * Real.cos theta), roundFloat (r * Real.sin theta)))

/-- Embedding of the decimation loop of `generateLatticePoints` (App.tsx
lines 81-86): `for (let i = 0; i < points.length; i += stride)
newPoints.push(points[i])`, keeping the elements at indices
`0, stride, 2·stride, …`.  Recursion mirrors the loop: keep the head, then
continue from `stride` positions further on (the `drop (stride - 1)` acts on
the tail, so head plus `stride - 1` dropped elements are skipped). -/
def strideSelect : List α → ℕ → List α
  | [], _ => []
  | x :: xs, stride => x :: strideSelect (xs.drop (stride - 1)) stride
  termination_by l _ => l.length
  decreasing_by simp; omega

/-- The ring-by-ring loop of `generateLatticePoints` (App.tsx lines 67-78),
i.e. the local `points` array before any decimation.  The loop bound
`i < pointsPerLayer` compares a natural against the real
`1 + layer * nPerLayer`, so the inner loop runs `⌈pointsPerLayer⌉` times
(0 if that is negative). -/
noncomputable def latticeRingPoints (size : ℝ) (layers : ℕ) (nPerLayer : ℝ)
    (twist : ℝ) : List (ℝ × ℝ) :=
  (List.range layers).flatMap (fun layer =>
    let pointsPerLayer : ℝ := 1 + (layer : ℝ) * nPerLayer
    let angleStride := (2 * Real.pi) / pointsPerLayer
    let radius := ((layer : ℝ) * size) / (2 * (layers : ℝ))
    (List.range ⌈pointsPerLayer⌉.toNat).map (fun (i : ℕ) =>
      let theta := (i : ℝ) * angleStride + twist * (layer : ℝ) * Real.pi
      (roundFloat (radius * Real.cos theta), roundFloat (radius * Real.sin theta))))

/-- Embedding of `generateLatticePoints` (App.tsx lines 54-89).  When
`points.length > n`, JS computes `stride = Math.floor(points.length / n)`;
for `n = 0` that stride is `Infinity` and the decimation loop keeps only
the first point. -/
noncomputable def generateLatticePoints (n : ℕ) (size : ℝ) (layers : ℕ)
    (nPerLayer : ℝ) (twist : ℝ) : List (ℝ × ℝ) :=
  let points := latticeRingPoints size layers nPerLayer twist
  if n < points.length then
    if n = 0 then points.take 1
    else strideSelect points (points.length / n)
  else points

/-- The angle handed to `Math.cos`/`Math.sin` for step `k` of the sunflower
generator, read off App.tsx lines 41 and 46: `theta = k * angleStride` with
`angleStride = geodesic ? 360 * phi : 2 * Math.PI / phi ** 2`. -/
noncomputable def sunflowerTheta (k : ℕ) (geodesic : Bool) : ℝ :=
  let phi := (1 + Real.sqrt 5) / 2
  (k : ℝ) * (if geodesic then 360 * phi else (2 * Real.pi) / phi ^ 2)

/-- The point pushed at step `k` of the sunflower loop (App.tsx lines
44-50), named for use in theorem statements. -/
noncomputable def sunflowerPoint (k n : ℕ) (alpha : ℝ) (geodesic : Bool)
    (size : ℝ) : ℝ × ℝ :=
  let b := round (alpha * Real.sqrt n)
  let r := radius k n b * (size / 2)
  (roundFloat (r * Real.cos (sunflowerTheta k geodesic)),
   roundFloat (r * Real.sin (sunflowerTheta k geodesic)))

/-- Embedding of `GenProps` (App.tsx lines 18-26).  At runtime `mode` is a
string coming from the control panel (`mode: mode as GenMode`), so it is
modelled as an arbitrary `String`. -/
structure GenProps where
  n : ℕ
  alpha : ℝ
  mode : String
  size : ℝ
  layers : ℕ
  nPerLayer : ℝ
  twist : ℝ

/-- Embedding of `generatePoints` (App.tsx lines 91-112): dispatch on `mode`
with an explicit default case returning the empty list. -/
noncomputable def generatePoints (g : GenProps) : List (ℝ × ℝ) :=
  match g.mode with
  | "sunflower" => generateSunflowerPoints g.n g.alpha false g.size
  | "sunflowerGeodesic" => generateSunflowerPoints g.n g.alpha true g.size
  | "lattice" => generateLatticePoints g.n g.size g.layers g.nPerLayer g.twist
  | _ => []

/-- Embedding of the record returned by `computePointStats` (App.tsx lines
203-209).  `median` is `sorted[Math.floor(sorted.length / 2)]`, which is
`undefined` on an empty list, hence an `Option`. -/
structure PointStats where
  average : EReal
  median : Option EReal
  minimum : EReal
  maximum : EReal
  maxDiffFromAverageNorm : EReal

/-- Embedding of the inner loop of `computePointStats` (App.tsx lines
182-193): the nearest-neighbour distance of point `i`, starting from
`Number.POSITIVE_INFINITY` (`⊤`), scanning every index `j ≠ i` and keeping
the smaller of the running minimum and `Math.hypot(dx, dy) / size`. -/
noncomputable def nnDistance (points : List (ℝ × ℝ)) (i : ℕ) (size : ℝ) : EReal :=
  (List.range points.length).foldl (fun minDistance j =>
    if i = j then minDistance
    else
      let p := points.getD i (0, 0)
      let q := points.getD j (0, 0)
      let distance : ℝ := Real.sqrt ((p.1 - q.1) ^ 2 + (p.2 - q.2) ^ 2) / size
      min minDistance (distance : EReal)) ⊤

/-- The list `distances` of `computePointStats`: the map of `nnDistance`
over the point indices. -/
noncomputable def nnDistances (points : List (ℝ × ℝ)) (size : ℝ) : List EReal :=
  (List.range points.length).map (fun i => nnDistance points i size)

/-- Embedding of `computePointStats` (App.tsx lines 180-210).
`Math.min(...distances)` is `Infinity` on the empty spread and the minimum
otherwise, i.e. a fold of `min` from `⊤`; `Math.max` dually from `⊥`.
`reduce((a, b) => a + b, 0)` is a fold of `+` from 0; the JS numeric sort
is `mergeSort` by `≤`; `Math.abs(x)` is `max x (-x)`.  (The `NaN` that JS
produces for `0/0` or `∞ - ∞` has no counterpart in `EReal`; no theorem
below depends on those positions.) -/
noncomputable def computePointStats (points : List (ℝ × ℝ)) (size : ℝ) :
    PointStats :=
  let distances := nnDistances points size
  let minimum := distances.foldl min ⊤
  let maximum := distances.foldl max ⊥
  let average := distances.foldl (· + ·) 0 / (points.length : EReal)
  let sorted := distances.mergeSort
  let median := sorted[sorted.length / 2]?
  let maxDiffFromAverageNorm :=
    (distances.map (fun distance =>
      let diff := distance - average
      max diff (-diff))).foldl max ⊥ / average
  { average := average, median := median, minimum := minimum,
    maximum := maximum, maxDiffFromAverageNorm := maxDiffFromAverageNorm }

/-! ## Theorems -/

/-- C4: for every `n ≥ 0` and every `alpha`, `size`,
`generateSunflowerPoints` (both the plain and the geodesic mode) returns a
point list of length exactly `n`, whose element at position `k - 1` is the
point for step `k`, for every integer `k ∈ [1, n]` (so the points appear in
ascending order of `k`); `n = 0` yields the empty list. -/
theorem sunflower_length_and_order (n : ℕ) (alpha : ℝ) (geodesic : Bool)
    (size : ℝ) :
    (generateSunflowerPoints n alpha geodesic size).length = n ∧
    generateSunflowerPoints 0 alpha geodesic size = [] ∧
    ∀ k : ℕ, 1 ≤ k → k ≤ n →
      (generateSunflowerPoints n alpha geodesic size)[k - 1]? =
        some (sunflowerPoint k n alpha geodesic size) := by
  refine ⟨by simp [generateSunflowerPoints], by simp [generateSunflowerPoints], ?_⟩
  intro k hk1 hkn
  have hlt : k - 1 < n := by omega
  simp only [generateSunflowerPoints, List.getElem?_map, List.getElem?_range, hlt,
    if_pos, Option.map_some']
  rw [Nat.sub_add_cancel hk1]
  simp [sunflowerPoint, sunflowerTheta]

/-- Witness for `sunflower_length_and_order` at `n = 3`, `k = 2`. -/
theorem sunflower_length_and_order_witness :
    (generateSunflowerPoints 3 2 false 100).length = 3 ∧
    (generateSunflowerPoints 3 2 false 100)[1]? =
      some (sunflowerPoint 2 3 2 false 100) :=
  ⟨(sunflower_length_and_order 3 2 false 100).1,
   (sunflower_length_and_order 3 2 false 100).2.2 2 (by decide) (by decide)⟩

/-- C5: for every `n ≥ 1`, with `alpha = 0` (so the boundary count
`b = round(0·√n) = 0`), the radius factor of the last sunflower point
`k = n` is exactly `1.0`, hence that point lies at unrounded distance
`size / 2` from the center. -/
theorem radius_last_point (n : ℕ) (hn : 1 ≤ n) (size : ℝ) :
    radius n n (round ((0 : ℝ) * Real.sqrt n)) = 1 ∧
    radius n n (round ((0 : ℝ) * Real.sqrt n)) * (size / 2) = size / 2 := by
  have hb : round ((0 : ℝ) * Real.sqrt n) = 0 := by simp
  have h1 : radius n n (round ((0 : ℝ) * Real.sqrt n)) = 1 := by
    rw [hb]
    unfold radius
    rw [if_neg (by omega)]
    have hn' : (1 : ℝ) ≤ (n : ℝ) := by exact_mod_cast hn
    have hpos : (0 : ℝ) < (n : ℝ) - 0.5 := by linarith
    rw [show ((n : ℝ) - (((0 : ℤ) : ℝ) + 1) / 2) = (n : ℝ) - 0.5 by push_cast; ring]
    exact div_self (Real.sqrt_ne_zero'.mpr hpos)
  exact ⟨h1, by rw [h1, one_mul]⟩

/-- Witness for `radius_last_point` at `n = 3`. -/
theorem radius_last_point_witness :
    radius 3 3 (round ((0 : ℝ) * Real.sqrt 3)) = 1 :=
  (radius_last_point 3 (by decide) 0).1

/-- C8: `generatePoints` returns the empty list on every `GenProps` whose
`mode` is none of the three recognized variants (and, being a total
function, raises no exception on any input). -/
theorem generatePoints_unrecognized_mode (g : GenProps)
    (h1 : g.mode ≠ "sunflower") (h2 : g.mode ≠ "sunflowerGeodesic")
    (h3 : g.mode ≠ "lattice") :
    generatePoints g = [] := by
  unfold generatePoints
  split <;> simp_all

/-- Witness for `generatePoints_unrecognized_mode` on mode `"hexLattice"`. -/
theorem generatePoints_unrecognized_mode_witness :
    generatePoints ⟨50, 2, "hexLattice", 500, 5, 6, 0⟩ = [] :=
  generatePoints_unrecognized_mode ⟨50, 2, "hexLattice", 500, 5, 6, 0⟩
    (by decide) (by decide) (by decide)

/-- Rounding to two decimals is idempotent: the rounded value is an integer
number of hundredths, and rounding an integer is the identity. -/
theorem roundFloat_idem (x : ℝ) : roundFloat (roundFloat x) = roundFloat x := by
  unfold roundFloat
  rw [div_mul_cancel₀ _ (by norm_num : (100 : ℝ) ≠ 0), round_intCast]

/-- Every element kept by the decimation loop comes from the input list. -/
theorem strideSelect_subset (l : List α) (s : ℕ) : strideSelect l s ⊆ l := by
  induction l, s using strideSelect.induct with
  | case1 s => simp [strideSelect]
  | case2 x xs s ih =>
    rw [strideSelect]
    intro a ha
    rcases List.mem_cons.mp ha with h | h
    · simp [h]
    · exact List.mem_cons_of_mem x (List.drop_subset _ xs (ih h))

/-- Every point of the sunflower generator is a pair of `roundFloat`s. -/
theorem mem_sunflower_shape (n : ℕ) (alpha : ℝ) (geodesic : Bool) (size : ℝ)
    (p : ℝ × ℝ) (hp : p ∈ generateSunflowerPoints n alpha geodesic size) :
    ∃ a b : ℝ, p = (roundFloat a, roundFloat b) := by
  simp only [generateSunflowerPoints, List.mem_map, List.mem_range] at hp
  obtain ⟨j, -, rfl⟩ := hp
  exact ⟨_, _, rfl⟩

/-- Every point of the ring-by-ring lattice loop is a pair of
`roundFloat`s. -/
theorem mem_latticeRing_shape (size : ℝ) (layers : ℕ) (nPerLayer twist : ℝ)
    (p : ℝ × ℝ) (hp : p ∈ latticeRingPoints size layers nPerLayer twist) :
    ∃ a b : ℝ, p = (roundFloat a, roundFloat b) := by
  simp only [latticeRingPoints, List.mem_flatMap, List.mem_map,
    List.mem_range] at hp
  obtain ⟨layer, -, ⟨i, -, rfl⟩⟩ := hp
  exact ⟨_, _, rfl⟩

/-- The lattice generator only returns points of the ring-by-ring loop. -/
theorem generateLatticePoints_subset (n : ℕ) (size : ℝ) (layers : ℕ)
    (nPerLayer twist : ℝ) :
    generateLatticePoints n size layers nPerLayer twist ⊆
      latticeRingPoints size layers nPerLayer twist := by
  intro a ha
  simp only [generateLatticePoints] at ha
  split at ha
  · split at ha
    · exact List.take_subset _ _ ha
    · exact strideSelect_subset _ _ ha
  · exact ha

/-- C9: every coordinate of every point emitted by `generatePoints` (any
mode) is a fixed point of rounding to two decimal places. -/
theorem generated_coords_round_fixed (g : GenProps) (p : ℝ × ℝ)
    (hp : p ∈ generatePoints g) :
    roundFloat p.1 = p.1 ∧ roundFloat p.2 = p.2 := by
  have shape : ∃ a b : ℝ, p = (roundFloat a, roundFloat b) := by
    unfold generatePoints at hp
    split at hp
    · exact mem_sunflower_shape _ _ _ _ _ hp
    · exact mem_sunflower_shape _ _ _ _ _ hp
    · exact mem_latticeRing_shape _ _ _ _ _
        (generateLatticePoints_subset _ _ _ _ _ hp)
    · simp at hp
  obtain ⟨a, b, rfl⟩ := shape
  exact ⟨roundFloat_idem a, roundFloat_idem b⟩

/-- Concrete evaluation: a one-layer lattice holds the single point
`(0, 0)` (layer 0 has ring radius 0). -/
theorem latticeRingPoints_one_layer : latticeRingPoints 100 1 0 0 = [(0, 0)] := by
  unfold latticeRingPoints
  rw [show List.range 1 = [0] from rfl]
  rw [List.flatMap_cons, List.flatMap_nil]
  simp only [Nat.cast_zero, zero_mul, add_zero, mul_zero, zero_add, Int.ceil_one,
    Int.toNat_one]
  rw [show List.range 1 = [0] from rfl]
  simp only [List.map_cons, List.map_nil, List.append_nil, Nat.cast_zero,
    zero_mul, zero_div, zero_add, mul_zero]
  simp [roundFloat]

/-- Concrete evaluation: `generateLatticePoints` with `n = 5` and one layer
returns `[(0, 0)]` (no decimation, since one point is fewer than five). -/
theorem generateLatticePoints_one_layer :
    generateLatticePoints 5 100 1 0 0 = [(0, 0)] := by
  simp only [generateLatticePoints, latticeRingPoints_one_layer]
  norm_num

/-- Witness for `generated_coords_round_fixed`: the single point `(0, 0)` of
a one-layer lattice. -/
theorem generated_coords_round_fixed_witness :
    roundFloat ((0 : ℝ), (0 : ℝ)).1 = ((0 : ℝ), (0 : ℝ)).1 ∧
    roundFloat ((0 : ℝ), (0 : ℝ)).2 = ((0 : ℝ), (0 : ℝ)).2 :=
  generated_coords_round_fixed ⟨5, 0, "lattice", 100, 1, 0, 0⟩ (0, 0)
    (by
      show (0, 0) ∈ generateLatticePoints 5 100 1 0 0
      rw [generateLatticePoints_one_layer]
      exact List.mem_singleton.mpr rfl)

/-- C3 (amended): the geodesic angular stride is the number `360·φ` used
directly as radians (no degree-to-radian conversion appears in the code),
while the plain mode uses `2π/φ²`; step `k` of the generator passes
`sunflowerTheta k geodesic = k · stride` to `cos`/`sin`. -/
theorem sunflower_angle_stride (k n : ℕ) (alpha size : ℝ) (geodesic : Bool)
    (hk1 : 1 ≤ k) (hkn : k ≤ n) :
    sunflowerTheta k true = (k : ℝ) * (360 * ((1 + Real.sqrt 5) / 2)) ∧
    sunflowerTheta k false =
      (k : ℝ) * ((2 * Real.pi) / ((1 + Real.sqrt 5) / 2) ^ 2) ∧
    (generateSunflowerPoints n alpha geodesic size)[k - 1]? =
      some (roundFloat (radius k n (round (alpha * Real.sqrt n)) * (size / 2) *
              Real.cos (sunflowerTheta k geodesic)),
            roundFloat (radius k n (round (alpha * Real.sqrt n)) * (size / 2) *
              Real.sin (sunflowerTheta k geodesic))) := by
  refine ⟨by simp [sunflowerTheta], by simp [sunflowerTheta], ?_⟩
  have hlt : k - 1 < n := by omega
  simp only [generateSunflowerPoints, List.getElem?_map, List.getElem?_range, hlt,
    if_pos, Option.map_some']
  rw [Nat.sub_add_cancel hk1]
  simp [sunflowerTheta]

/-- Witness for `sunflower_angle_stride` at `k = 1`, `n = 2`. -/
theorem sunflower_angle_stride_witness :
    sunflowerTheta 1 true = ((1 : ℕ) : ℝ) * (360 * ((1 + Real.sqrt 5) / 2)) ∧
    (generateSunflowerPoints 2 0 true 100)[0]? =
      some (roundFloat (radius 1 2 (round ((0 : ℝ) * Real.sqrt 2)) * (100 / 2) *
              Real.cos (sunflowerTheta 1 true)),
            roundFloat (radius 1 2 (round ((0 : ℝ) * Real.sqrt 2)) * (100 / 2) *
              Real.sin (sunflowerTheta 1 true))) :=
  ⟨(sunflower_angle_stride 1 2 0 100 true (by decide) (by decide)).1,
   (sunflower_angle_stride 1 2 0 100 true (by decide) (by decide)).2.2⟩

/-- Counterexample to C3 as stated: the angle used by the geodesic mode at
step `k = 1` is `360·φ`, which is *not* `1·360·φ·π/180` — the source never
multiplies by `π/180`. -/
theorem sunflowerTheta_not_converted_to_radians :
    sunflowerTheta 1 true ≠
      (1 : ℝ) * (360 * ((1 + Real.sqrt 5) / 2)) * Real.pi / 180 := by
  have h5 : (0 : ℝ) ≤ Real.sqrt 5 := Real.sqrt_nonneg 5
  have hφ : (0 : ℝ) < 360 * ((1 + Real.sqrt 5) / 2) := by linarith
  intro h
  simp only [sunflowerTheta, Nat.cast_one, one_mul] at h
  norm_num at h
  have h2 : 360 * ((1 + Real.sqrt 5) / 2) * 180 =
      360 * ((1 + Real.sqrt 5) / 2) * Real.pi := by
    field_simp at h
    linarith
  have h3 : (180 : ℝ) = Real.pi := mul_left_cancel₀ (ne_of_gt hφ) h2
  have := Real.pi_lt_d2
  linarith

/-- C10: sunflower radius factors never exceed 1 (for `1 ≤ k ≤ n` and
boundary count `round (alpha·√n)` with `alpha ≥ 0`), and every lattice ring
radius `layer·size/(2·layers)` with `layer < layers` is strictly below
`size/2` — so all generated points lie inside or on the circle of radius
`size/2` before rounding. -/
theorem points_within_circle (k n : ℕ) (alpha : ℝ) (layer nl : ℕ) (size : ℝ)
    (hk1 : 1 ≤ k) (hkn : k ≤ n) (ha : 0 ≤ alpha) (hl : layer < nl)
    (hs : 0 < size) :
    radius k n (round (alpha * Real.sqrt n)) ≤ 1 ∧
    ((layer : ℝ) * size) / (2 * (nl : ℝ)) < size / 2 := by
  constructor
  · have hb0 : 0 ≤ round (alpha * Real.sqrt n) := by
      rw [round_eq]
      refine Int.floor_nonneg.mpr ?_
      have := Real.sqrt_nonneg (n : ℝ)
      positivity
    unfold radius
    split
    · norm_num
    · rename_i hcond
      push_neg at hcond
      have hk' : (k : ℝ) ≤ (n : ℝ) - ((round (alpha * Real.sqrt n) : ℤ) : ℝ) := by
        exact_mod_cast hcond
      have hb0' : (0 : ℝ) ≤ ((round (alpha * Real.sqrt n) : ℤ) : ℝ) := by
        exact_mod_cast hb0
      have harg : (k : ℝ) - 0.5 ≤
          (n : ℝ) - (((round (alpha * Real.sqrt n) : ℤ) : ℝ) + 1) / 2 := by
        linarith
      exact div_le_one_of_le₀ (Real.sqrt_le_sqrt harg) (Real.sqrt_nonneg _)
  · have hll : (layer : ℝ) < (nl : ℝ) := by exact_mod_cast hl
    have hnl : (0 : ℝ) < (nl : ℝ) := by
      have : (0 : ℕ) < nl := by omega
      exact_mod_cast this
    rw [div_lt_div_iff₀ (by linarith) (by norm_num)]
    nlinarith

/-- Witness for `points_within_circle` at `k = 1`, `n = 3`, `alpha = 0`,
`layer = 0`, `layers = 1`, `size = 100`. -/
theorem points_within_circle_witness :
    radius 1 3 (round ((0 : ℝ) * Real.sqrt 3)) ≤ 1 ∧
    (((0 : ℕ) : ℝ) * 100) / (2 * ((1 : ℕ) : ℝ)) < 100 / 2 :=
  points_within_circle 1 3 0 0 1 100 (by decide) (by decide) (by norm_num)
    (by decide) (by norm_num)

/-- The decimation loop keeps `⌈length / stride⌉` elements. -/
theorem strideSelect_length (l : List α) (s : ℕ) (hs : 1 ≤ s) :
    (strideSelect l s).length = (l.length + s - 1) / s := by
  induction l, s using strideSelect.induct with
  | case1 s =>
    simp only [strideSelect, List.length_nil, Nat.zero_add]
    exact (Nat.div_eq_of_lt (by omega)).symm
  | case2 x xs s ih =>
    rw [strideSelect, List.length_cons, ih hs, List.length_drop, List.length_cons]
    rcases le_or_lt (s - 1) xs.length with h | h
    · rw [show xs.length - (s - 1) + s - 1 = xs.length by omega,
        show xs.length + 1 + s - 1 = xs.length + s by omega,
        Nat.add_div_right _ (by omega : 0 < s)]
    · rw [show xs.length - (s - 1) = 0 by omega, Nat.zero_add,
        Nat.div_eq_of_lt (by omega : s - 1 < s),
        show xs.length + 1 + s - 1 = xs.length + s by omega,
        Nat.add_div_right _ (by omega : 0 < s),
        Nat.div_eq_of_lt (by omega : xs.length < s)]

/-- The decimation loop keeps exactly the elements at indices
`0, stride, 2·stride, …` of its input. -/
theorem strideSelect_getElem (l : List α) (s : ℕ) (hs : 1 ≤ s) (j : ℕ) :
    (strideSelect l s)[j]? = l[j * s]? := by
  induction l, s using strideSelect.induct generalizing j with
  | case1 s => simp [strideSelect]
  | case2 x xs s ih =>
    rw [strideSelect]
    match j with
    | 0 => simp
    | j + 1 =>
      rw [List.getElem?_cons_succ, ih hs j, List.getElem?_drop,
        show (j + 1) * s = (s - 1 + j * s) + 1 by
          have : (j + 1) * s = j * s + s := by ring
          omega,
        List.getElem?_cons_succ]

/-- `flatMap` of singleton lists is `map`. -/
theorem flatMap_single (l : List α) (f : α → β) :
    (l.flatMap fun x => [f x]) = l.map f := by
  induction l with
  | nil => simp
  | cons a l ih => simp [ih]

/-- With `nPerLayer = 0` every ring of the lattice loop has exactly one
point, at ring radius `layer·size/(2·layers)` and angle `twist·layer·π`. -/
theorem latticeRingPoints_nPerLayer_zero (L : ℕ) (size twist : ℝ) :
    latticeRingPoints size L 0 twist =
      (List.range L).map (fun (layer : ℕ) =>
        (roundFloat ((((layer : ℝ) * size) / (2 * (L : ℝ))) *
           Real.cos (twist * (layer : ℝ) * Real.pi)),
         roundFloat ((((layer : ℝ) * size) / (2 * (L : ℝ))) *
           Real.sin (twist * (layer : ℝ) * Real.pi)))) := by
  unfold latticeRingPoints
  simp only [mul_zero, add_zero, Int.ceil_one, Int.toNat_one, List.range_succ,
    List.range_zero, List.nil_append, List.map_cons, List.map_nil,
    Nat.cast_zero, zero_mul, zero_add]
  rw [flatMap_single]

/-- C6: in lattice mode with `layers = L ≥ 1`, `nPerLayer = 0` and `n ≥ L`,
`generateLatticePoints` returns exactly `L` points, one per ring, the one of
ring `layer` at radius `layer·size/(2·L)` and angle `twist·layer·π`. -/
theorem lattice_one_point_per_ring (n L : ℕ) (size twist : ℝ)
    (hL : 1 ≤ L) (hnL : L ≤ n) :
    generateLatticePoints n size L 0 twist =
      (List.range L).map (fun (layer : ℕ) =>
        (roundFloat ((((layer : ℝ) * size) / (2 * (L : ℝ))) *
           Real.cos (twist * (layer : ℝ) * Real.pi)),
         roundFloat ((((layer : ℝ) * size) / (2 * (L : ℝ))) *
           Real.sin (twist * (layer : ℝ) * Real.pi)))) ∧
    (generateLatticePoints n size L 0 twist).length = L := by
  have hring := latticeRingPoints_nPerLayer_zero L size twist
  have hlen : (latticeRingPoints size L 0 twist).length = L := by
    rw [hring, List.length_map, List.length_range]
  have hmain : generateLatticePoints n size L 0 twist =
      latticeRingPoints size L 0 twist := by
    simp only [generateLatticePoints]
    rw [if_neg (by rw [hlen]; omega)]
  refine ⟨hmain.trans hring, ?_⟩
  rw [hmain, hlen]

/-- Witness for `lattice_one_point_per_ring` at `L = 2`, `n = 3`. -/
theorem lattice_one_point_per_ring_witness :
    generateLatticePoints 3 100 2 0 1 =
      (List.range 2).map (fun (layer : ℕ) =>
        (roundFloat ((((layer : ℝ) * 100) / (2 * ((2 : ℕ) : ℝ))) *
           Real.cos (1 * (layer : ℝ) * Real.pi)),
         roundFloat ((((layer : ℝ) * 100) / (2 * ((2 : ℕ) : ℝ))) *
           Real.sin (1 * (layer : ℝ) * Real.pi)))) ∧
    (generateLatticePoints 3 100 2 0 1).length = 2 :=
  lattice_one_point_per_ring 3 2 100 1 (by decide) (by decide)

/-- C1 (amended): when the ring-by-ring loop generates `total > n ≥ 1`
points, the returned list is the subsequence at indices
`0, stride, 2·stride, …` with `stride = ⌊total / n⌋`; its length is
`⌈total / stride⌉`, which is always at least `n` and at most `2·n - 1` —
it can exceed `n`. -/
theorem lattice_downsample_properties (n : ℕ) (size : ℝ) (layers : ℕ)
    (nPerLayer twist : ℝ) (hn : 1 ≤ n)
    (hover : n < (latticeRingPoints size layers nPerLayer twist).length) :
    (∀ j : ℕ,
      (generateLatticePoints n size layers nPerLayer twist)[j]? =
        (latticeRingPoints size layers nPerLayer twist)[j *
          ((latticeRingPoints size layers nPerLayer twist).length / n)]?) ∧
    (generateLatticePoints n size layers nPerLayer twist).length =
      ((latticeRingPoints size layers nPerLayer twist).length +
        (latticeRingPoints size layers nPerLayer twist).length / n - 1) /
        ((latticeRingPoints size layers nPerLayer twist).length / n) ∧
    n ≤ (generateLatticePoints n size layers nPerLayer twist).length ∧
    (generateLatticePoints n size layers nPerLayer twist).length ≤
      2 * n - 1 := by
  have hs1 : 1 ≤ (latticeRingPoints size layers nPerLayer twist).length / n :=
    (Nat.one_le_div_iff (by omega)).mpr (le_of_lt hover)
  have hres : generateLatticePoints n size layers nPerLayer twist =
      strideSelect (latticeRingPoints size layers nPerLayer twist)
        ((latticeRingPoints size layers nPerLayer twist).length / n) := by
    simp only [generateLatticePoints]
    rw [if_pos hover, if_neg (by omega : ¬ n = 0)]
  have hlen : (generateLatticePoints n size layers nPerLayer twist).length =
      ((latticeRingPoints size layers nPerLayer twist).length +
        (latticeRingPoints size layers nPerLayer twist).length / n - 1) /
        ((latticeRingPoints size layers nPerLayer twist).length / n) := by
    rw [hres, strideSelect_length _ _ hs1]
  refine ⟨fun j => by rw [hres, strideSelect_getElem _ _ hs1], hlen, ?_, ?_⟩
  · rw [hlen, Nat.le_div_iff_mul_le (by omega)]
    have h1 : n * ((latticeRingPoints size layers nPerLayer twist).length / n) ≤
        (latticeRingPoints size layers nPerLayer twist).length := by
      rw [mul_comm]
      exact Nat.div_mul_le_self _ n
    exact le_trans h1 (by omega)
  · rw [hlen]
    have hLub : (latticeRingPoints size layers nPerLayer twist).length <
        n * ((latticeRingPoints size layers nPerLayer twist).length / n) + n := by
      have h := Nat.lt_mul_div_succ
        (latticeRingPoints size layers nPerLayer twist).length
        (show 0 < n by omega)
      calc (latticeRingPoints size layers nPerLayer twist).length
          < n * ((latticeRingPoints size layers nPerLayer twist).length / n + 1) :=
            h
        _ = n * ((latticeRingPoints size layers nPerLayer twist).length / n) + n :=
            by ring
    generalize hLdef : (latticeRingPoints size layers nPerLayer twist).length = L
      at hover hs1 hLub ⊢
    generalize hsdef : L / n = s at hs1 hLub ⊢
    rw [Nat.div_le_iff_le_mul_add_pred (by omega : 0 < s)]
    have hAcast : ((s * (2 * n - 1) : ℕ) : ℤ) =
        (s : ℤ) * (2 * (n : ℤ) - 1) := by
      push_cast [Nat.cast_sub (show 1 ≤ 2 * n by omega)]
      ring
    have hs' : (1 : ℤ) ≤ (s : ℤ) := by exact_mod_cast hs1
    have hn' : (1 : ℤ) ≤ (n : ℤ) := by exact_mod_cast hn
    have hLub' : (L : ℤ) < (n : ℤ) * (s : ℤ) + (n : ℤ) := by exact_mod_cast hLub
    have main : (L : ℤ) + (s : ℤ) - 1 ≤ ((s * (2 * n - 1) : ℕ) : ℤ) +
        ((s : ℤ) - 1) := by
      rw [hAcast]
      nlinarith [mul_nonneg (by linarith : (0 : ℤ) ≤ (s : ℤ) - 1)
        (by linarith : (0 : ℤ) ≤ (n : ℤ) - 1)]
    omega

/-- Concrete evaluation: the ring loop with 2 layers and `nPerLayer = 3`
generates `1 + 4 = 5` points. -/
theorem latticeRingPoints_example_length :
    (latticeRingPoints 100 2 3 0).length = 5 := by
  unfold latticeRingPoints
  rw [show List.range 2 = [0, 1] from rfl]
  rw [List.flatMap_cons, List.flatMap_cons, List.flatMap_nil, List.append_nil]
  rw [List.length_append, List.length_map, List.length_map, List.length_range,
    List.length_range]
  norm_num
  decide

/-- Witness for `lattice_downsample_properties`: 5 generated points, `n = 2`,
stride 2 — the result keeps indices 0, 2, 4, so its length is 3. -/
theorem lattice_downsample_properties_witness :
    2 ≤ (generateLatticePoints 2 100 2 3 0).length ∧
    (generateLatticePoints 2 100 2 3 0).length ≤ 2 * 2 - 1 :=
  ⟨(lattice_downsample_properties 2 100 2 3 0 (by norm_num)
      (by rw [latticeRingPoints_example_length]; norm_num)).2.2.1,
   (lattice_downsample_properties 2 100 2 3 0 (by norm_num)
      (by rw [latticeRingPoints_example_length]; norm_num)).2.2.2⟩

/-- Counterexample to C1 as stated: with 2 layers, `nPerLayer = 3` and
`n = 2`, the ring loop generates 5 points, the decimation stride is 2, and
the returned list has 3 > 2 points — more than the requested `n`. -/
theorem lattice_downsample_exceeds_n :
    ¬ ((generateLatticePoints 2 100 2 3 0).length ≤ 2) := by
  have hres : generateLatticePoints 2 100 2 3 0 =
      strideSelect (latticeRingPoints 100 2 3 0) 2 := by
    simp only [generateLatticePoints]
    rw [latticeRingPoints_example_length]
    norm_num
  rw [hres, strideSelect_length _ _ (by norm_num),
    latticeRingPoints_example_length]
  norm_num

/-! Square roots of the squared distances of the four-collinear-point
example `(0,0), (1,0), (3,0), (7,0)` used for the median claims. -/

theorem sqrt_four : Real.sqrt 4 = 2 := by
  rw [show (4:ℝ) = 2^2 by norm_num, Real.sqrt_sq (by norm_num : (0:ℝ) ≤ 2)]

theorem sqrt_nine : Real.sqrt 9 = 3 := by
  rw [show (9:ℝ) = 3^2 by norm_num, Real.sqrt_sq (by norm_num : (0:ℝ) ≤ 3)]

theorem sqrt_sixteen : Real.sqrt 16 = 4 := by
  rw [show (16:ℝ) = 4^2 by norm_num, Real.sqrt_sq (by norm_num : (0:ℝ) ≤ 4)]

theorem sqrt_thirtysix : Real.sqrt 36 = 6 := by
  rw [show (36:ℝ) = 6^2 by norm_num, Real.sqrt_sq (by norm_num : (0:ℝ) ≤ 6)]

theorem sqrt_fortynine : Real.sqrt 49 = 7 := by
  rw [show (49:ℝ) = 7^2 by norm_num, Real.sqrt_sq (by norm_num : (0:ℝ) ≤ 7)]

/-- Nearest-neighbour distance of `(0,0)` among the example points:
`min(1, 3, 7) = 1`. -/
theorem nnDistance_ex_zero :
    nnDistance [((0:ℝ),(0:ℝ)), ((1:ℝ),(0:ℝ)), ((3:ℝ),(0:ℝ)), ((7:ℝ),(0:ℝ))] 0 1 =
      ((1:ℝ) : EReal) := by
  unfold nnDistance
  rw [show List.range ([((0:ℝ),(0:ℝ)), ((1:ℝ),(0:ℝ)), ((3:ℝ),(0:ℝ)),
      ((7:ℝ),(0:ℝ))]).length = [0, 1, 2, 3] from rfl]
  simp only [List.foldl_cons, List.foldl_nil, List.getD_cons_zero,
    List.getD_cons_succ]
  norm_num
  rw [sqrt_nine, ← EReal.coe_one]
  exact EReal.coe_le_coe_iff.mpr (by norm_num)

/-- Nearest-neighbour distance of `(1,0)` among the example points:
`min(1, 2, 6) = 1`. -/
theorem nnDistance_ex_one :
    nnDistance [((0:ℝ),(0:ℝ)), ((1:ℝ),(0:ℝ)), ((3:ℝ),(0:ℝ)), ((7:ℝ),(0:ℝ))] 1 1 =
      ((1:ℝ) : EReal) := by
  unfold nnDistance
  rw [show List.range ([((0:ℝ),(0:ℝ)), ((1:ℝ),(0:ℝ)), ((3:ℝ),(0:ℝ)),
      ((7:ℝ),(0:ℝ))]).length = [0, 1, 2, 3] from rfl]
  simp only [List.foldl_cons, List.foldl_nil, List.getD_cons_zero,
    List.getD_cons_succ]
  norm_num
  rw [sqrt_four, ← EReal.coe_one]
  exact EReal.coe_le_coe_iff.mpr (by norm_num)

/-- Nearest-neighbour distance of `(3,0)` among the example points:
`min(3, 2, 4) = 2`. -/
theorem nnDistance_ex_two :
    nnDistance [((0:ℝ),(0:ℝ)), ((1:ℝ),(0:ℝ)), ((3:ℝ),(0:ℝ)), ((7:ℝ),(0:ℝ))] 2 1 =
      ((2:ℝ) : EReal) := by
  unfold nnDistance
  rw [show List.range ([((0:ℝ),(0:ℝ)), ((1:ℝ),(0:ℝ)), ((3:ℝ),(0:ℝ)),
      ((7:ℝ),(0:ℝ))]).length = [0, 1, 2, 3] from rfl]
  simp only [List.foldl_cons, List.foldl_nil, List.getD_cons_zero,
    List.getD_cons_succ]
  norm_num [sqrt_four, sqrt_nine, sqrt_sixteen]

/-- Nearest-neighbour distance of `(7,0)` among the example points:
`min(7, 6, 4) = 4`. -/
theorem nnDistance_ex_three :
    nnDistance [((0:ℝ),(0:ℝ)), ((1:ℝ),(0:ℝ)), ((3:ℝ),(0:ℝ)), ((7:ℝ),(0:ℝ))] 3 1 =
      ((4:ℝ) : EReal) := by
  unfold nnDistance
  rw [show List.range ([((0:ℝ),(0:ℝ)), ((1:ℝ),(0:ℝ)), ((3:ℝ),(0:ℝ)),
      ((7:ℝ),(0:ℝ))]).length = [0, 1, 2, 3] from rfl]
  simp only [List.foldl_cons, List.foldl_nil, List.getD_cons_zero,
    List.getD_cons_succ]
  norm_num [sqrt_sixteen, sqrt_thirtysix, sqrt_fortynine]

/-- The nearest-neighbour distance list of the example points is
`[1, 1, 2, 4]` — of even length and already in ascending order. -/
theorem nnDistances_ex :
    nnDistances [((0:ℝ),(0:ℝ)), ((1:ℝ),(0:ℝ)), ((3:ℝ),(0:ℝ)), ((7:ℝ),(0:ℝ))] 1 =
      [((1:ℝ) : EReal), ((1:ℝ) : EReal), ((2:ℝ) : EReal), ((4:ℝ) : EReal)] := by
  unfold nnDistances
  rw [show List.range ([((0:ℝ),(0:ℝ)), ((1:ℝ),(0:ℝ)), ((3:ℝ),(0:ℝ)),
      ((7:ℝ),(0:ℝ))]).length = [0, 1, 2, 3] from rfl]
  simp only [List.map_cons, List.map_nil]
  rw [nnDistance_ex_zero, nnDistance_ex_one, nnDistance_ex_two,
    nnDistance_ex_three]

/-- C2 (amended): for every point set, the `median` returned by
`computePointStats` is the element at index `⌊len / 2⌋` of the ascending
sorted distance list — for even length that is the *upper*-middle element
(not the lower-middle one), and for odd length the true middle element.
`sortedD` here is any ascending sorted permutation of the distance list
(such a list is unique). -/
theorem median_is_upper_middle (points : List (ℝ × ℝ)) (size : ℝ)
    (sortedD : List EReal) (hperm : sortedD.Perm (nnDistances points size))
    (hsorted : sortedD.Sorted (· ≤ ·)) :
    (computePointStats points size).median = sortedD[sortedD.length / 2]? := by
  have hms : (nnDistances points size).mergeSort = sortedD :=
    List.eq_of_perm_of_sorted ((List.mergeSort_perm _ _).trans hperm.symm)
      (List.sorted_mergeSort' _) hsorted
  simp only [computePointStats, hms]

/-- Witness for `median_is_upper_middle` on the four collinear example
points, whose sorted distance list is `[1, 1, 2, 4]`. -/
theorem median_is_upper_middle_witness :
    (computePointStats [((0:ℝ),(0:ℝ)), ((1:ℝ),(0:ℝ)), ((3:ℝ),(0:ℝ)),
        ((7:ℝ),(0:ℝ))] 1).median =
      ([((1:ℝ) : EReal), ((1:ℝ) : EReal), ((2:ℝ) : EReal), ((4:ℝ) : EReal)])[
        ([((1:ℝ) : EReal), ((1:ℝ) : EReal), ((2:ℝ) : EReal),
          ((4:ℝ) : EReal)]).length / 2]? :=
  median_is_upper_middle _ 1 _ (by rw [nnDistances_ex])
    (by norm_num [List.sorted_cons, EReal.coe_le_coe_iff, ← EReal.coe_one])

/-- Counterexample to C2 as stated: the example points have sorted distance
list `[1, 1, 2, 4]` (even length 4); the code returns `median = 2`, the
upper-middle element at index `⌊4/2⌋ = 2`, *not* the lower-middle element
`1` at index `⌊(4-1)/2⌋ = 1` that the claim requires. -/
theorem median_not_lower_middle :
    nnDistances [((0:ℝ),(0:ℝ)), ((1:ℝ),(0:ℝ)), ((3:ℝ),(0:ℝ)), ((7:ℝ),(0:ℝ))] 1 =
      [((1:ℝ) : EReal), ((1:ℝ) : EReal), ((2:ℝ) : EReal), ((4:ℝ) : EReal)] ∧
    (computePointStats [((0:ℝ),(0:ℝ)), ((1:ℝ),(0:ℝ)), ((3:ℝ),(0:ℝ)),
        ((7:ℝ),(0:ℝ))] 1).median = some ((2:ℝ) : EReal) ∧
    (computePointStats [((0:ℝ),(0:ℝ)), ((1:ℝ),(0:ℝ)), ((3:ℝ),(0:ℝ)),
        ((7:ℝ),(0:ℝ))] 1).median ≠
      ([((1:ℝ) : EReal), ((1:ℝ) : EReal), ((2:ℝ) : EReal), ((4:ℝ) : EReal)])[
        (([((1:ℝ) : EReal), ((1:ℝ) : EReal), ((2:ℝ) : EReal),
          ((4:ℝ) : EReal)]).length - 1) / 2]? := by
  have hsorted : ([((1:ℝ) : EReal), ((1:ℝ) : EReal), ((2:ℝ) : EReal),
      ((4:ℝ) : EReal)]).Sorted (· ≤ ·) := by
    norm_num [List.sorted_cons, EReal.coe_le_coe_iff, ← EReal.coe_one]
  have hmed : (computePointStats [((0:ℝ),(0:ℝ)), ((1:ℝ),(0:ℝ)), ((3:ℝ),(0:ℝ)),
      ((7:ℝ),(0:ℝ))] 1).median = some ((2:ℝ) : EReal) := by
    simp only [computePointStats, nnDistances_ex]
    rw [List.mergeSort_eq_self hsorted]
    rfl
  refine ⟨nnDistances_ex, hmed, ?_⟩
  rw [hmed, show ([((1:ℝ) : EReal), ((1:ℝ) : EReal), ((2:ℝ) : EReal),
      ((4:ℝ) : EReal)])[(([((1:ℝ) : EReal), ((1:ℝ) : EReal), ((2:ℝ) : EReal),
      ((4:ℝ) : EReal)]).length - 1) / 2]? = some ((1:ℝ) : EReal) from rfl]
  simp only [ne_eq, Option.some.injEq, EReal.coe_eq_coe_iff]
  norm_num

/-- C7: `computePointStats` is a total function, and on point sets of size
1 and 0 it returns, with no special-casing, the degenerate values the
formulas dictate: for one point the single nearest-neighbour distance is
`+∞`, so minimum, maximum, median and average are all `+∞`; for zero
points the empty `Math.min`/`Math.max` spreads give `+∞` and `-∞` and the
median (an out-of-range index) is undefined.  (The JS `NaN` of the empty
average `0/0` has no `EReal` counterpart and is not stated.) -/
theorem stats_degenerate (p : ℝ × ℝ) (s : ℝ) :
    nnDistances [p] s = [⊤] ∧
    (computePointStats [p] s).minimum = ⊤ ∧
    (computePointStats [p] s).maximum = ⊤ ∧
    (computePointStats [p] s).median = some ⊤ ∧
    (computePointStats [p] s).average = ⊤ ∧
    (computePointStats [] s).minimum = ⊤ ∧
    (computePointStats [] s).maximum = ⊥ ∧
    (computePointStats [] s).median = none := by
  have hd : nnDistances [p] s = [⊤] := by
    simp [nnDistances, nnDistance, List.range_succ]
  have hms : ([⊤] : List EReal).mergeSort = [⊤] :=
    List.mergeSort_eq_self (List.sorted_singleton _)
  have hd0 : nnDistances [] s = [] := by simp [nnDistances]
  have hms0 : ([] : List EReal).mergeSort = [] :=
    List.mergeSort_eq_self List.sorted_nil
  refine ⟨hd, ?_, ?_, ?_, ?_, ?_, ?_, ?_⟩ <;>
    simp only [computePointStats, hd, hms, hd0, hms0]
  · simp
  · simp
  · simp
  · simp only [List.foldl_cons, List.foldl_nil, zero_add, List.length_cons,
      List.length_nil, Nat.cast_one]
    refine EReal.top_div_of_pos_ne_top (by norm_num) ?_
    rw [show (1 : EReal) = ((1 : ℝ) : EReal) from EReal.coe_one.symm]
    exact EReal.coe_ne_top 1
  · simp
  · simp
  · simp

end Holey
